import Mathlib

/-!
Shallow embedding of `npmp_embedding/mocap_preprocess.py`.

A pose (one row of a `qpos` trajectory) is a flat list of rationals laid out
as `[position(3), orientation_quaternion(4), joint_angles(J)]`, mirroring the
numpy row layout of the source.  A trajectory is a list of such rows.
External collaborators (the `dm_control` transformation library and the
physics bindings of the rodent walker) are abstracted as a `PhysicsModel`
of deterministic functions: everything the repository reads back from the
physics engine is a function of the pose most recently applied by
`set_walker`, and every quaternion-library call is a function of its
arguments.
-/

namespace MocapPreprocess

/-- Scalar clip: `np.clip(x, lo, hi) = min(max(x, lo), hi)`. -/
def clip1 (lo hi x : ℚ) : ℚ := min (max x lo) hi

/-- External collaborators of `mocap_preprocess.py`: joint metadata exposed by
`physics.bind(walker.mocap_joints)`, body names of
`walker.mocap_tracking_bodies`, the quaternion/Euler routines of
`dm_control.utils.transformations`, and the per-pose readback maps used by
`get_mocap_features`.  `gyroStep q1 q2` stands for
`tr.quat_to_axisangle(normed(tr.quat_diff(q1, q2)))`; the division by `dt`
stays explicit in `compute_velocity_from_kinematics`. -/
structure PhysicsModel where
  jointNames : List String
  jointMin : List ℚ
  jointMax : List ℚ
  bodyNames : List String
  gyroStep : List ℚ → List ℚ → List ℚ
  quatToEulerZYX : List ℚ → List ℚ
  eulerToQuatZYX : List ℚ → List ℚ
  readCom : List ℚ → List ℚ
  readEndEffectors : List ℚ → List (List ℚ)
  hasAppendages : Bool
  readAppendages : List ℚ → List (List ℚ)
  readBodyXpos : List ℚ → List (List ℚ)
  readBodyXquat : List ℚ → List (List ℚ)

/-- Component-wise finite difference of two rows: `(b - a) / dt`. -/
def finiteDiffRow (dt : ℚ) (a b : List ℚ) : List ℚ :=
  List.zipWith (fun x y => (y - x) / dt) a b

/-- Rows of `qvel_translation = (qpos_trajectory[1:, :3] - qpos_trajectory[:-1, :3]) / dt`. -/
def qvelTranslation (traj : List (List ℚ)) (dt : ℚ) : List (List ℚ) :=
  List.zipWith (fun a b => finiteDiffRow dt (a.take 3) (b.take 3)) traj traj.tail

/-- Rows of `qvel_gyro`: for each consecutive pair of poses,
`tr.quat_to_axisangle(normed_diff) / dt` on the quaternion columns `[3:7]`. -/
def qvelGyro (M : PhysicsModel) (traj : List (List ℚ)) (dt : ℚ) : List (List ℚ) :=
  List.zipWith
    (fun a b => (M.gyroStep ((a.drop 3).take 4) ((b.drop 3).take 4)).map (· / dt))
    traj traj.tail

/-- Rows of `qvel_joints = (qpos_trajectory[1:, 7:] - qpos_trajectory[:-1, 7:]) / dt`. -/
def qvelJoints (traj : List (List ℚ)) (dt : ℚ) : List (List ℚ) :=
  List.zipWith (fun a b => finiteDiffRow dt (a.drop 7) (b.drop 7)) traj traj.tail

/-- Embedding of `compute_velocity_from_kinematics`: row `t` of
`np.concatenate([qvel_translation, qvel_gyro, qvel_joints], axis=1)`. -/
def compute_velocity_from_kinematics (M : PhysicsModel) (qpos_trajectory : List (List ℚ))
    (dt : ℚ) : List (List ℚ) :=
  List.zipWith (· ++ ·)
    (List.zipWith (· ++ ·) (qvelTranslation qpos_trajectory dt) (qvelGyro M qpos_trajectory dt))
    (qvelJoints qpos_trajectory dt)

/-- Diagnostic record printed by the verbatim clipping loops: frame index,
joint name, original value, clipped value. -/
abbrev Diag : Type := ℕ × String × ℚ × ℚ

/-- Row of clipped angles: `np.clip(angles, min_angles, max_angles)` broadcasts
the per-joint bounds across each row. -/
def clipRow (mins maxs row : List ℚ) : List ℚ :=
  List.zipWith (fun p x => clip1 p.1 p.2 x) (mins.zip maxs) row

/-- Computable absolute value on ℚ, mirroring `np.abs`. -/
def rabs (x : ℚ) : ℚ := if x < 0 then -x else x

/-- Records printed for one row by the loop
`for i, j in zip(*indexes): if np.abs(orig - clipped) >= 0.1: print(...)`,
where `indexes = np.where(orig != clipped)`. -/
def rowDiagRecords (names : List String) (i : ℕ) (orig clipped : List ℚ) : List Diag :=
  (orig.zip clipped).enum.filterMap fun p =>
    if p.2.1 ≠ p.2.2 ∧ rabs (p.2.1 - p.2.2) ≥ 1 / 10 then
      some (i, names.getD p.1 "", p.2.1, p.2.2)
    else none

/-- Full diagnostic output of one verbatim clipping loop, rows in `np.where`
C-order (frame index ascending, column ascending within a frame). -/
def clipDiagnostics (names : List String) (origRows clippedRows : List (List ℚ))
    (verbatim : Bool) : List Diag :=
  if verbatim then
    ((origRows.zip clippedRows).enum.map fun r => rowDiagRecords names r.1 r.2.1 r.2.2).flatten
  else []

/-- Embedding of `set_walker`: the pose vector written into the physics state
(`physics.bind(freejoint).qpos = qpos[:7]`,
`physics.bind(walker.mocap_joints).qpos = qpos[7:]`).  The function first
copies `qpos`; under `null_xyr` it zeroes `qpos[:3]`, decomposes `qpos[3:7]`
into ZYX Euler angles, zeroes the first component and reconstructs the
quaternion; finally it adds the scalar `offset` to `qpos[:3]`.  The
`shift_pose` branch is not modelled: every call in this repository leaves
`position_shift` and `rotation_shift` at `None`. -/
def set_walker (M : PhysicsModel) (qpos : List ℚ) (null_xyr : Bool) (offset : ℚ) : List ℚ :=
  let q1 := if null_xyr then
      let q0 := List.replicate 3 (0 : ℚ) ++ qpos.drop 3
      let euler := (M.quatToEulerZYX ((q0.drop 3).take 4)).set 0 0
      q0.take 3 ++ M.eulerToQuatZYX euler ++ q0.drop 7
    else qpos
  (q1.take 3).map (· + offset) ++ q1.drop 3

/-- The per-quantity arrays accumulated by `get_mocap_features`. -/
structure MocapFeatures where
  position : List (List ℚ)
  quaternion : List (List ℚ)
  joints : List (List ℚ)
  center_of_mass : List (List ℚ)
  end_effectors : List (List (List ℚ))
  appendages : List (List (List ℚ))
  body_positions : List (List (List ℚ))
  body_quaternions : List (List (List ℚ))
  velocity : List (List ℚ)
  angular_velocity : List (List ℚ)
  joints_velocity : List (List ℚ)

/-- Observable outcome of one `get_mocap_features` call: the returned feature
mapping, the two diagnostic streams, the recorded foot heights, the computed
`z_offset`, the final state of the caller-supplied `mocap_qpos` array (the
function assigns `mocap_qpos[:, 7:] = clipped_angles` into it before
rebinding the name to the padded local copy), and the final padded working
array. -/
structure GetMocapResult where
  features : MocapFeatures
  angleDiags : List Diag
  velDiags : List Diag
  feetHeight : List ℚ
  zOffset : ℚ
  callerQpos : List (List ℚ)
  workingQpos : List (List ℚ)

/-- One step of `arr[..., 2] -= z` on a single row. -/
def subZ (z : ℚ) (v : List ℚ) : List ℚ := v.set 2 (v.getD 2 0 - z)

/-- Stage of `get_mocap_features`: `angles = mocap_qpos[:, 7:]`. -/
def gmfAngles (qpos : List (List ℚ)) : List (List ℚ) := qpos.map (·.drop 7)

/-- Stage of `get_mocap_features`:
`clipped_angles = np.clip(angles, min_angles, max_angles)`. -/
def gmfClippedAngles (M : PhysicsModel) (qpos : List (List ℚ)) : List (List ℚ) :=
  (gmfAngles qpos).map (clipRow M.jointMin M.jointMax)

/-- The caller-supplied array after the in-place assignment
`mocap_qpos[:, 7:] = clipped_angles`. -/
def gmfClippedQpos (M : PhysicsModel) (qpos : List (List ℚ)) : List (List ℚ) :=
  List.zipWith (fun row c => row.take 7 ++ c) qpos (gmfClippedAngles M qpos)

/-- Padding for the velocity corner case:
`np.concatenate([mocap_qpos, mocap_qpos[-1, np.newaxis, :]], axis=0)`. -/
def gmfPadded (M : PhysicsModel) (qpos : List (List ℚ)) : List (List ℚ) :=
  gmfClippedQpos M qpos ++ [(gmfClippedQpos M qpos).getLastD []]

/-- The pose vectors applied by `set_walker` across the loop
`for n_frame, qpos in enumerate(mocap_qpos[:-1])`. -/
def gmfApplied (M : PhysicsModel) (qpos : List (List ℚ)) (null_xyr : Bool) :
    List (List ℚ) :=
  (gmfPadded M qpos).dropLast.map fun q => set_walker M q null_xyr 0

/-- Foot heights accumulated when `adjust_z_offset` is truthy: per frame, the
z components of the `foot_L` and the `foot_R` body positions. -/
def gmfFeetHeight (M : PhysicsModel) (qpos : List (List ℚ)) (adjust_z_offset : ℚ)
    (null_xyr : Bool) : List ℚ :=
  if adjust_z_offset ≠ 0 then
    (gmfApplied M qpos null_xyr).flatMap fun q =>
      [((M.readBodyXpos q).getD (M.bodyNames.indexOf "foot_L") []).getD 2 0,
       ((M.readBodyXpos q).getD (M.bodyNames.indexOf "foot_R") []).getD 2 0]
  else []

/-- Ground-alignment offset: `feet_height = np.sort(feet_height)`, then
`z_offset = feet_height[:10].mean() - 0.006` when `adjust_z_offset` is
truthy, else `z_offset = 0`. -/
def gmfZOffset (M : PhysicsModel) (qpos : List (List ℚ)) (adjust_z_offset : ℚ)
    (null_xyr : Bool) : ℚ :=
  if adjust_z_offset ≠ 0 then
    let sorted := (gmfFeetHeight M qpos adjust_z_offset null_xyr).insertionSort (· ≤ ·)
    (sorted.take 10).sum / ((sorted.take 10).length : ℚ) - 6 / 1000
  else 0

/-- The working padded array after `mocap_qpos[:, 2] -= z_offset`. -/
def gmfWorking (M : PhysicsModel) (qpos : List (List ℚ)) (adjust_z_offset : ℚ)
    (null_xyr : Bool) : List (List ℚ) :=
  (gmfPadded M qpos).map (subZ (gmfZOffset M qpos adjust_z_offset null_xyr))

/-- `mocap_qvel = compute_velocity_from_kinematics(mocap_qpos, dt)` on the
z-adjusted padded working array. -/
def gmfQvel (M : PhysicsModel) (qpos : List (List ℚ)) (dt adjust_z_offset : ℚ)
    (null_xyr : Bool) : List (List ℚ) :=
  compute_velocity_from_kinematics M (gmfWorking M qpos adjust_z_offset null_xyr) dt

/-- `vels = mocap_qvel[:, 6:]`. -/
def gmfVels (M : PhysicsModel) (qpos : List (List ℚ)) (dt adjust_z_offset : ℚ)
    (null_xyr : Bool) : List (List ℚ) :=
  (gmfQvel M qpos dt adjust_z_offset null_xyr).map (·.drop 6)

/-- `clipped_vels = np.clip(vels, -max_qvel, max_qvel)`. -/
def gmfClippedVels (M : PhysicsModel) (qpos : List (List ℚ))
    (max_qvel dt adjust_z_offset : ℚ) (null_xyr : Bool) : List (List ℚ) :=
  (gmfVels M qpos dt adjust_z_offset null_xyr).map (·.map (clip1 (-max_qvel) max_qvel))

/-- `mocap_qvel` after the in-place assignment `mocap_qvel[:, 6:] = clipped_vels`. -/
def gmfQvel2 (M : PhysicsModel) (qpos : List (List ℚ)) (max_qvel dt adjust_z_offset : ℚ)
    (null_xyr : Bool) : List (List ℚ) :=
  List.zipWith (fun row c => row.take 6 ++ c)
    (gmfQvel M qpos dt adjust_z_offset null_xyr)
    (gmfClippedVels M qpos max_qvel dt adjust_z_offset null_xyr)

/-- Embedding of `get_mocap_features`, assembled from the stage definitions
above in source order.  `adjust_z_offset` is a float used for its truthiness,
as in the source.  The physics readbacks are deterministic functions
(`PhysicsModel`) of the pose applied by `set_walker`. -/
def get_mocap_features (M : PhysicsModel) (mocap_qpos : List (List ℚ))
    (max_qvel dt adjust_z_offset : ℚ) (verbatim : Bool) (null_xyr : Bool) :
    GetMocapResult :=
  let applied := gmfApplied M mocap_qpos null_xyr
  let z_offset := gmfZOffset M mocap_qpos adjust_z_offset null_xyr
  let qvel2 := gmfQvel2 M mocap_qpos max_qvel dt adjust_z_offset null_xyr
  { features :=
      { position := (applied.map (·.take 3)).map (subZ z_offset)
        quaternion := applied.map fun q => (q.drop 3).take 4
        joints := applied.map (·.drop 7)
        center_of_mass := (applied.map M.readCom).map (subZ z_offset)
        end_effectors := applied.map M.readEndEffectors
        appendages := applied.map fun q =>
          if M.hasAppendages then M.readAppendages q else M.readEndEffectors q
        body_positions := (applied.map M.readBodyXpos).map (·.map (subZ z_offset))
        body_quaternions := applied.map M.readBodyXquat
        velocity := qvel2.map (·.take 3)
        angular_velocity := qvel2.map fun r => (r.drop 3).take 3
        joints_velocity := qvel2.map (·.drop 6) }
    angleDiags := clipDiagnostics M.jointNames (gmfAngles mocap_qpos)
      (gmfClippedAngles M mocap_qpos) verbatim
    velDiags := clipDiagnostics M.jointNames (gmfVels M mocap_qpos dt adjust_z_offset null_xyr)
      (gmfClippedVels M mocap_qpos max_qvel dt adjust_z_offset null_xyr) verbatim
    feetHeight := gmfFeetHeight M mocap_qpos adjust_z_offset null_xyr
    zOffset := z_offset
    callerQpos := gmfClippedQpos M mocap_qpos
    workingQpos := gmfWorking M mocap_qpos adjust_z_offset null_xyr }

/-- Clip start offsets of `NpmpPreprocessor.extract_features`:
`range(0, n_steps, clip_length)`. -/
def chunkStarts (n_steps clip_length : ℕ) : List ℕ :=
  List.range' 0 ((n_steps + clip_length - 1) / clip_length) clip_length

/-- Embedding of `max_reference_index = np.max(self.ref_steps) + 1`. -/
def max_reference_index (ref_steps : List ℕ) : ℕ := ref_steps.foldl Nat.max 0 + 1

/-- End of the clip starting at `start`:
`np.min([start_step + clip_length + max_reference_index, n_steps])`. -/
def clipEnd (n_steps clip_length maxRefIdx start : ℕ) : ℕ :=
  min (start + clip_length + maxRefIdx) n_steps

/-- Default `ref_steps = (1, ..., 10)` of the preprocessor constructor. -/
def defaultRefSteps : List ℕ := [1, 2, 3, 4, 5, 6, 7, 8, 9, 10]

/-- Character-list test for `pat` being an initial segment of the second list. -/
def startsWithChars : List Char → List Char → Bool
  | [], _ => true
  | _ :: _, [] => false
  | p :: ps, x :: xs => p == x && startsWithChars ps xs

/-- Contiguous-substring occurrence of `pat`, mirroring Python `pat in s`. -/
def containsSub (pat : List Char) : List Char → Bool
  | [] => startsWithChars pat []
  | x :: xs => startsWithChars pat (x :: xs) || containsSub pat xs

/-- Split a character list at every occurrence of `c`, mirroring Python
`s.split(c)` for a one-character separator. -/
def splitOnChar (c : Char) : List Char → List (List Char)
  | [] => [[]]
  | x :: xs =>
    match splitOnChar c xs with
    | [] => [[]]
    | r :: rs => if x == c then [] :: r :: rs else (x :: r) :: rs

/-- Decimal digit value of a character, if it is a digit. -/
def charDigit (c : Char) : Option ℕ :=
  if '0' ≤ c ∧ c ≤ '9' then some (c.toNat - '0'.toNat) else none

/-- Python `int(s)` restricted to unsigned decimal numerals: `none` where
`int` would raise. -/
def parseNat (s : List Char) : Option ℕ :=
  if s.isEmpty then none
  else s.foldl (fun acc c =>
    match acc, charDigit c with
    | some n, some d => some (10 * n + d)
    | _, _ => none) (some 0)

/-- Substring test mirroring the Python expression `sub in s`. -/
def strContains (s sub : String) : Bool := containsSub sub.data s.data

/-- Python `f.split(".")[0]`. -/
def fileStem (f : String) : String := ⟨(splitOnChar '.' f.data).headD []⟩

/-- Python `int(f.split(".")[0])` for numeric stems (`int` raises on
non-numeric stems; those take the default 0 here and are excluded by
hypothesis in the theorems that rely on numeric values). -/
def fileKey (f : String) : ℕ := (parseNat (fileStem f).data).getD 0

/-- File filter of `merge_preprocessed_files`:
`".hdf5" in f and "total" not in f`. -/
def mergeCandidate (f : String) : Bool := strContains f ".hdf5" && !strContains f "total"

/-- Order in which `merge_preprocessed_files` processes files: the candidate
files sorted ascending by the numeric value of the stem
(`np.argsort([int(f.split(".")[0]) for f in files])`). -/
def mergeOrder (listing : List String) : List String :=
  (listing.filter mergeCandidate).insertionSort fun a b => fileKey a ≤ fileKey b

/-- Clip names created in the consolidated container, in processing order:
`"clip_" + file.split(".")[0]`. -/
def mergeClipNames (listing : List String) : List String :=
  (mergeOrder listing).map fun f => "clip_" ++ fileStem f

/-- Value stored for one feature quantity, tagged by array rank as the
source branches on `len(np.array(v).shape)`. -/
inductive FeatVal where
  | a1 : List ℚ → FeatVal
  | a2 : List (List ℚ) → FeatVal
  | a3 : List (List (List ℚ)) → FeatVal

/-- Temporal length (`len(v)`) of a feature value. -/
def featLen : FeatVal → ℕ
  | .a1 v => v.length
  | .a2 v => v.length
  | .a3 v => v.length

/-- Storage transform of `save_features`: rank-3 arrays are transposed
`(1, 2, 0)` and reshaped to `(-1, n_steps)`; rank-2 arrays are
`swapaxes(0, 1)`; anything else is stored as-is. -/
def storeVal : FeatVal → FeatVal
  | .a3 v => .a2 ((v.transpose.map List.transpose).flatten)
  | .a2 v => .a2 v.transpose
  | .a1 v => .a1 v

/-- The clip group written by `save_features`: attributes and the
`walkers/walker_0` arrays. -/
structure ClipGroup where
  num_steps : ℕ
  dtAttr : ℚ
  walkers : List (String × FeatVal)

/-- Embedding of `NpmpPreprocessor.save_features`.  The `dt` argument stands
for the preprocessor configuration `self.dt`, which the method could have
consulted but does not: the stored attribute is the literal `0.02`.
`num_steps = len(mocap_features["center_of_mass"])`. -/
def save_features (dt : ℚ) (mocap_features : List (String × FeatVal))
    (clip_name : String) : String × ClipGroup :=
  (clip_name,
    { num_steps := featLen ((mocap_features.lookup "center_of_mass").getD (.a2 []))
      dtAttr := 2 / 100
      walkers := mocap_features.map fun p => (p.1, storeVal p.2) })

/-- Feature mapping in source dict-insertion order, with the `scaling` and
`markers` entries that `extract_features` appends before `save_features`. -/
def featurePairs (f : MocapFeatures) : List (String × FeatVal) :=
  [("position", .a2 f.position),
   ("quaternion", .a2 f.quaternion),
   ("joints", .a2 f.joints),
   ("center_of_mass", .a2 f.center_of_mass),
   ("end_effectors", .a3 f.end_effectors),
   ("velocity", .a2 f.velocity),
   ("angular_velocity", .a2 f.angular_velocity),
   ("joints_velocity", .a2 f.joints_velocity),
   ("appendages", .a3 f.appendages),
   ("body_positions", .a3 f.body_positions),
   ("body_quaternions", .a3 f.body_quaternions),
   ("scaling", .a1 []),
   ("markers", .a1 [])]

/-- Concrete physics model used by closed witness instances: one joint named
`j0` with range `[0, 1]`, trivial readbacks, and a zero gyro step. -/
def M0 : PhysicsModel where
  jointNames := ["j0"]
  jointMin := [0]
  jointMax := [1]
  bodyNames := ["foot_L", "foot_R"]
  gyroStep := fun _ _ => [0, 0, 0]
  quatToEulerZYX := fun _ => [0, 0, 0]
  eulerToQuatZYX := fun _ => [1, 0, 0, 0]
  readCom := fun _ => [0, 0, 0]
  readEndEffectors := fun _ => [[0, 0, 0]]
  hasAppendages := false
  readAppendages := fun _ => []
  readBodyXpos := fun q => [[0, 0, q.getD 2 0], [0, 0, q.getD 2 0]]
  readBodyXquat := fun _ => [[1, 0, 0, 0], [1, 0, 0, 0]]

theorem length_qvelTranslation (traj : List (List ℚ)) (dt : ℚ) :
    (qvelTranslation traj dt).length = traj.length - 1 := by
  simp [qvelTranslation, Nat.min_def]

theorem length_qvelGyro (M : PhysicsModel) (traj : List (List ℚ)) (dt : ℚ) :
    (qvelGyro M traj dt).length = traj.length - 1 := by
  simp [qvelGyro, Nat.min_def]

theorem length_qvelJoints (traj : List (List ℚ)) (dt : ℚ) :
    (qvelJoints traj dt).length = traj.length - 1 := by
  simp [qvelJoints, Nat.min_def]

theorem length_cvk (M : PhysicsModel) (traj : List (List ℚ)) (dt : ℚ) :
    (compute_velocity_from_kinematics M traj dt).length = traj.length - 1 := by
  simp [compute_velocity_from_kinematics, length_qvelTranslation, length_qvelGyro,
    length_qvelJoints]

theorem getElem_cvk (M : PhysicsModel) (traj : List (List ℚ)) (dt : ℚ) (t : ℕ)
    (h : t < (compute_velocity_from_kinematics M traj dt).length) :
    (compute_velocity_from_kinematics M traj dt)[t] =
      finiteDiffRow dt ((traj.getD t []).take 3) ((traj.getD (t + 1) []).take 3)
      ++ (M.gyroStep (((traj.getD t []).drop 3).take 4)
            (((traj.getD (t + 1) []).drop 3).take 4)).map (· / dt)
      ++ finiteDiffRow dt ((traj.getD t []).drop 7) ((traj.getD (t + 1) []).drop 7) := by
  have hlen : t < traj.length - 1 := by
    simpa [length_cvk] using h
  have ht : t < traj.length := by omega
  have ht1 : t + 1 < traj.length := by omega
  have htail : t < traj.tail.length := by
    simp [List.length_tail]; omega
  simp only [compute_velocity_from_kinematics, qvelTranslation, qvelGyro, qvelJoints]
  rw [List.getElem_zipWith, List.getElem_zipWith, List.getElem_zipWith,
    List.getElem_zipWith, List.getElem_zipWith]
  simp [List.getElem_tail, List.getD_eq_getElem, ht, ht1, List.append_assoc]

theorem getD_cvk (M : PhysicsModel) (traj : List (List ℚ)) (dt : ℚ) (t : ℕ)
    (h : t < traj.length - 1) :
    (compute_velocity_from_kinematics M traj dt).getD t [] =
      finiteDiffRow dt ((traj.getD t []).take 3) ((traj.getD (t + 1) []).take 3)
      ++ (M.gyroStep (((traj.getD t []).drop 3).take 4)
            (((traj.getD (t + 1) []).drop 3).take 4)).map (· / dt)
      ++ finiteDiffRow dt ((traj.getD t []).drop 7) ((traj.getD (t + 1) []).drop 7) := by
  have hc : t < (compute_velocity_from_kinematics M traj dt).length := by
    rw [length_cvk]; omega
  rw [List.getD_eq_getElem _ _ hc, getElem_cvk]

theorem length_finiteDiffRow (dt : ℚ) (a b : List ℚ) :
    (finiteDiffRow dt a b).length = min a.length b.length := by
  simp [finiteDiffRow]

theorem getD_finiteDiffRow (dt : ℚ) (a b : List ℚ) (k : ℕ)
    (hka : k < a.length) (hkb : k < b.length) :
    (finiteDiffRow dt a b).getD k 0 = (b.getD k 0 - a.getD k 0) / dt := by
  rw [List.getD_eq_getElem _ _ (show k < (finiteDiffRow dt a b).length by
    rw [length_finiteDiffRow]; omega)]
  unfold finiteDiffRow
  rw [List.getElem_zipWith, List.getD_eq_getElem _ _ hka, List.getD_eq_getElem _ _ hkb]

theorem getD_take_of_lt (l : List ℚ) (n k : ℕ) (d : ℚ) (h : k < n) (hl : k < l.length) :
    (l.take n).getD k d = l.getD k d := by
  rw [List.getD_eq_getElem _ _ (show k < (l.take n).length by simp; omega),
    List.getD_eq_getElem _ _ hl]
  simp [List.getElem_take]

/-- C1: for every padded pose trajectory of length `N + 1` (`N ≥ 1`) and every
`dt > 0`, `compute_velocity_from_kinematics` returns a velocity trajectory of
length `N` in which, at every time-step `t`, the first 3 components equal
`(position[t+1] - position[t]) / dt`, the components after the first 6 equal
`(joint_angles[t+1] - joint_angles[t]) / dt` component-wise, and the per-step
layout is the concatenation `[linear(3), angular(3), joints(J)]`. -/
theorem C1_compute_velocity_rows (M : PhysicsModel) (traj : List (List ℚ)) (dt : ℚ)
    (N J : ℕ) (hN : 1 ≤ N) (hlen : traj.length = N + 1) (hdt : 0 < dt)
    (hrow : ∀ r ∈ traj, r.length = 7 + J)
    (hg : ∀ a b : List ℚ, (M.gyroStep a b).length = 3) :
    (compute_velocity_from_kinematics M traj dt).length = N ∧
    ∀ t < N,
      (∀ k < 3,
        ((compute_velocity_from_kinematics M traj dt).getD t []).getD k 0 =
          ((traj.getD (t + 1) []).getD k 0 - (traj.getD t []).getD k 0) / dt) ∧
      ((compute_velocity_from_kinematics M traj dt).getD t []).drop 6 =
        List.zipWith (fun x y => (y - x) / dt)
          ((traj.getD t []).drop 7) ((traj.getD (t + 1) []).drop 7) ∧
      ∃ lin ang joints : List ℚ,
        lin.length = 3 ∧ ang.length = 3 ∧ joints.length = J ∧
        (compute_velocity_from_kinematics M traj dt).getD t [] = lin ++ ang ++ joints := by
  have hL : (compute_velocity_from_kinematics M traj dt).length = N := by
    rw [length_cvk, hlen]; omega
  refine ⟨hL, ?_⟩
  intro t ht
  have ht' : t < traj.length := by omega
  have ht1 : t + 1 < traj.length := by omega
  have la : (traj.getD t []).length = 7 + J := by
    rw [List.getD_eq_getElem _ _ ht']
    exact hrow _ (List.getElem_mem ht')
  have lb : (traj.getD (t + 1) []).length = 7 + J := by
    rw [List.getD_eq_getElem _ _ ht1]
    exact hrow _ (List.getElem_mem ht1)
  have hrow_eq := getD_cvk M traj dt t (by omega)
  set a := traj.getD t [] with ha
  set b := traj.getD (t + 1) [] with hb
  set A := finiteDiffRow dt (a.take 3) (b.take 3) with hA
  set B := (M.gyroStep ((a.drop 3).take 4) ((b.drop 3).take 4)).map (· / dt) with hB
  set C := finiteDiffRow dt (a.drop 7) (b.drop 7) with hC
  have lA : A.length = 3 := by
    rw [hA, length_finiteDiffRow]
    simp only [List.length_take, la, lb]
    omega
  have lB : B.length = 3 := by
    rw [hB, List.length_map, hg]
  have lC : C.length = J := by
    rw [hC, length_finiteDiffRow]
    simp only [List.length_drop, la, lb]
    omega
  refine ⟨?_, ?_, A, B, C, lA, lB, lC, hrow_eq⟩
  · intro k hk
    rw [hrow_eq]
    have hkA : k < (A ++ B).length := by
      rw [List.length_append, lA, lB]; omega
    rw [List.getD_append _ _ _ _ hkA, List.getD_append _ _ _ _ (by omega)]
    rw [hA, getD_finiteDiffRow dt _ _ k (by simp [la]; omega) (by simp [lb]; omega)]
    rw [getD_take_of_lt _ _ _ _ hk (by omega), getD_take_of_lt _ _ _ _ hk (by omega)]
  · rw [hrow_eq]
    have h6 : (A ++ B).length = 6 := by rw [List.length_append, lA, lB]
    rw [List.drop_left' h6, hC]
    rfl

/-- Witness for C1 at a concrete input: the two-row trajectory
`[[0,0,0,1,0,0,0], [1,2,3,1,0,0,0]]` with `dt = 1` and `J = 0`. -/
theorem C1_compute_velocity_rows_witness :
    (compute_velocity_from_kinematics M0 [[0,0,0,1,0,0,0], [1,2,3,1,0,0,0]] 1).length = 1 ∧
    ∀ t < 1,
      (∀ k < 3,
        ((compute_velocity_from_kinematics M0 [[0,0,0,1,0,0,0], [1,2,3,1,0,0,0]] 1).getD t []).getD k 0 =
          ((([[0,0,0,1,0,0,0], [1,2,3,1,0,0,0]] : List (List ℚ)).getD (t + 1) []).getD k 0 -
            (([[0,0,0,1,0,0,0], [1,2,3,1,0,0,0]] : List (List ℚ)).getD t []).getD k 0) / 1) ∧
      ((compute_velocity_from_kinematics M0 [[0,0,0,1,0,0,0], [1,2,3,1,0,0,0]] 1).getD t []).drop 6 =
        List.zipWith (fun x y => (y - x) / 1)
          ((([[0,0,0,1,0,0,0], [1,2,3,1,0,0,0]] : List (List ℚ)).getD t []).drop 7)
          ((([[0,0,0,1,0,0,0], [1,2,3,1,0,0,0]] : List (List ℚ)).getD (t + 1) []).drop 7) ∧
      ∃ lin ang joints : List ℚ,
        lin.length = 3 ∧ ang.length = 3 ∧ joints.length = 0 ∧
        (compute_velocity_from_kinematics M0 [[0,0,0,1,0,0,0], [1,2,3,1,0,0,0]] 1).getD t [] =
          lin ++ ang ++ joints :=
  C1_compute_velocity_rows M0 [[0,0,0,1,0,0,0], [1,2,3,1,0,0,0]] 1 1 0 le_rfl rfl
    (by norm_num) (by decide) (fun _ _ => rfl)


theorem fdr_take3_set2 (dt : ℚ) (g : ℚ → ℚ) (hg : ∀ x y : ℚ, g y - g x = y - x)
    (r s : List ℚ) :
    finiteDiffRow dt ((r.set 2 (g (r.getD 2 0))).take 3) ((s.set 2 (g (s.getD 2 0))).take 3) =
      finiteDiffRow dt (r.take 3) (s.take 3) := by
  rcases r with _ | ⟨a, _ | ⟨b, _ | ⟨x, rs⟩⟩⟩ <;>
    rcases s with _ | ⟨d, _ | ⟨e, _ | ⟨f, ss⟩⟩⟩ <;>
      simp [finiteDiffRow, hg]

theorem drop3_set2 (x : ℚ) (r : List ℚ) : (r.set 2 x).drop 3 = r.drop 3 :=
  List.drop_set_of_lt _ _ (by omega)

theorem drop7_set2 (x : ℚ) (r : List ℚ) : (r.set 2 x).drop 7 = r.drop 7 :=
  List.drop_set_of_lt _ _ (by omega)

theorem qvelTranslation_map_set2 (traj : List (List ℚ)) (dt : ℚ) (g : ℚ → ℚ)
    (hg : ∀ x y : ℚ, g y - g x = y - x) :
    qvelTranslation (traj.map fun r => r.set 2 (g (r.getD 2 0))) dt =
      qvelTranslation traj dt := by
  unfold qvelTranslation
  rw [← List.map_tail, List.zipWith_map]
  have hfun : (fun (a b : List ℚ) =>
      finiteDiffRow dt ((a.set 2 (g (a.getD 2 0))).take 3) ((b.set 2 (g (b.getD 2 0))).take 3)) =
      fun (a b : List ℚ) => finiteDiffRow dt (a.take 3) (b.take 3) :=
    funext fun a => funext fun b => fdr_take3_set2 dt g hg a b
  rw [hfun]

theorem qvelGyro_map_set2 (M : PhysicsModel) (traj : List (List ℚ)) (dt : ℚ) (g : ℚ → ℚ) :
    qvelGyro M (traj.map fun r => r.set 2 (g (r.getD 2 0))) dt = qvelGyro M traj dt := by
  unfold qvelGyro
  rw [← List.map_tail, List.zipWith_map]
  have hfun : (fun (a b : List ℚ) =>
      (M.gyroStep (((a.set 2 (g (a.getD 2 0))).drop 3).take 4)
        (((b.set 2 (g (b.getD 2 0))).drop 3).take 4)).map (· / dt)) =
      fun (a b : List ℚ) =>
        (M.gyroStep ((a.drop 3).take 4) ((b.drop 3).take 4)).map (· / dt) :=
    funext fun a => funext fun b => by rw [drop3_set2, drop3_set2]
  rw [hfun]

theorem qvelJoints_map_set2 (traj : List (List ℚ)) (dt : ℚ) (g : ℚ → ℚ) :
    qvelJoints (traj.map fun r => r.set 2 (g (r.getD 2 0))) dt = qvelJoints traj dt := by
  unfold qvelJoints
  rw [← List.map_tail, List.zipWith_map]
  have hfun : (fun (a b : List ℚ) =>
      finiteDiffRow dt ((a.set 2 (g (a.getD 2 0))).drop 7) ((b.set 2 (g (b.getD 2 0))).drop 7)) =
      fun (a b : List ℚ) => finiteDiffRow dt (a.drop 7) (b.drop 7) :=
    funext fun a => funext fun b => by rw [drop7_set2, drop7_set2]
  rw [hfun]

theorem cvk_map_set2 (M : PhysicsModel) (traj : List (List ℚ)) (dt : ℚ) (g : ℚ → ℚ)
    (hg : ∀ x y : ℚ, g y - g x = y - x) :
    compute_velocity_from_kinematics M (traj.map fun r => r.set 2 (g (r.getD 2 0))) dt =
      compute_velocity_from_kinematics M traj dt := by
  unfold compute_velocity_from_kinematics
  rw [qvelTranslation_map_set2 traj dt g hg, qvelGyro_map_set2 M traj dt g,
    qvelJoints_map_set2 traj dt g]

theorem cvk_map_subZ (M : PhysicsModel) (traj : List (List ℚ)) (dt z : ℚ) :
    compute_velocity_from_kinematics M (traj.map (subZ z)) dt =
      compute_velocity_from_kinematics M traj dt := by
  have h : traj.map (subZ z) = traj.map fun r => r.set 2 ((fun x => x - z) (r.getD 2 0)) := rfl
  rw [h, cvk_map_set2 M traj dt (fun x => x - z) (by intro x y; ring)]

theorem subZ_zero (v : List ℚ) : subZ 0 v = v := by
  rcases v with _ | ⟨a, _ | ⟨b, _ | ⟨x, rest⟩⟩⟩ <;> simp [subZ]

theorem map_subZ_zero (l : List (List ℚ)) : l.map (subZ 0) = l := by
  induction l with
  | nil => rfl
  | cons h t ih => simp only [List.map_cons, subZ_zero, ih]

section Accessors

variable (M : PhysicsModel) (qpos : List (List ℚ)) (mq dt adj : ℚ) (v n : Bool)

theorem gmf_position :
    (get_mocap_features M qpos mq dt adj v n).features.position =
      ((gmfApplied M qpos n).map (·.take 3)).map (subZ (gmfZOffset M qpos adj n)) := rfl

theorem gmf_quaternion :
    (get_mocap_features M qpos mq dt adj v n).features.quaternion =
      (gmfApplied M qpos n).map fun q => (q.drop 3).take 4 := rfl

theorem gmf_joints :
    (get_mocap_features M qpos mq dt adj v n).features.joints =
      (gmfApplied M qpos n).map (·.drop 7) := rfl

theorem gmf_com :
    (get_mocap_features M qpos mq dt adj v n).features.center_of_mass =
      ((gmfApplied M qpos n).map M.readCom).map (subZ (gmfZOffset M qpos adj n)) := rfl

theorem gmf_end_effectors :
    (get_mocap_features M qpos mq dt adj v n).features.end_effectors =
      (gmfApplied M qpos n).map M.readEndEffectors := rfl

theorem gmf_appendages :
    (get_mocap_features M qpos mq dt adj v n).features.appendages =
      (gmfApplied M qpos n).map fun q =>
        if M.hasAppendages then M.readAppendages q else M.readEndEffectors q := rfl

theorem gmf_body_positions :
    (get_mocap_features M qpos mq dt adj v n).features.body_positions =
      ((gmfApplied M qpos n).map M.readBodyXpos).map
        (·.map (subZ (gmfZOffset M qpos adj n))) := rfl

theorem gmf_body_quaternions :
    (get_mocap_features M qpos mq dt adj v n).features.body_quaternions =
      (gmfApplied M qpos n).map M.readBodyXquat := rfl

theorem gmf_velocity :
    (get_mocap_features M qpos mq dt adj v n).features.velocity =
      (gmfQvel2 M qpos mq dt adj n).map (·.take 3) := rfl

theorem gmf_angular_velocity :
    (get_mocap_features M qpos mq dt adj v n).features.angular_velocity =
      (gmfQvel2 M qpos mq dt adj n).map fun r => (r.drop 3).take 3 := rfl

theorem gmf_joints_velocity :
    (get_mocap_features M qpos mq dt adj v n).features.joints_velocity =
      (gmfQvel2 M qpos mq dt adj n).map (·.drop 6) := rfl

theorem gmf_angleDiags :
    (get_mocap_features M qpos mq dt adj v n).angleDiags =
      clipDiagnostics M.jointNames (gmfAngles qpos) (gmfClippedAngles M qpos) v := rfl

theorem gmf_velDiags :
    (get_mocap_features M qpos mq dt adj v n).velDiags =
      clipDiagnostics M.jointNames (gmfVels M qpos dt adj n)
        (gmfClippedVels M qpos mq dt adj n) v := rfl

theorem gmf_feetHeight :
    (get_mocap_features M qpos mq dt adj v n).feetHeight = gmfFeetHeight M qpos adj n := rfl

theorem gmf_zOffset :
    (get_mocap_features M qpos mq dt adj v n).zOffset = gmfZOffset M qpos adj n := rfl

theorem gmf_callerQpos :
    (get_mocap_features M qpos mq dt adj v n).callerQpos = gmfClippedQpos M qpos := rfl

theorem gmf_workingQpos :
    (get_mocap_features M qpos mq dt adj v n).workingQpos = gmfWorking M qpos adj n := rfl

end Accessors

theorem gmfQvel_eq (M : PhysicsModel) (qpos : List (List ℚ)) (dt adj : ℚ) (n : Bool) :
    gmfQvel M qpos dt adj n = compute_velocity_from_kinematics M (gmfPadded M qpos) dt := by
  unfold gmfQvel gmfWorking
  exact cvk_map_subZ M _ dt _

theorem gmfQvel2_adj (M : PhysicsModel) (qpos : List (List ℚ)) (mq dt adj : ℚ) (n : Bool) :
    gmfQvel2 M qpos mq dt adj n = gmfQvel2 M qpos mq dt 0 n := by
  unfold gmfQvel2 gmfClippedVels gmfVels
  rw [gmfQvel_eq, gmfQvel_eq]

/-- C10: for every pose trajectory, every `dt`, and every constant `c`,
`compute_velocity_from_kinematics` applied to the trajectory whose z-position
column is uniformly shifted by `c` yields exactly the velocity trajectory of
the unshifted trajectory; hence the ground-alignment subtraction of
`z_offset` from the working trajectory, performed before velocity derivation
in `get_mocap_features`, changes none of the computed linear, angular, or
joint velocities (the velocities agree with those of an unadjusted run). -/
theorem C10_z_shift_invariance (M : PhysicsModel) (dt : ℚ) :
    (∀ (traj : List (List ℚ)) (c : ℚ),
      compute_velocity_from_kinematics M (traj.map fun r => r.set 2 (r.getD 2 0 + c)) dt =
        compute_velocity_from_kinematics M traj dt) ∧
    ∀ (qpos : List (List ℚ)) (max_qvel adjust_z_offset : ℚ) (verbatim null_xyr : Bool),
      (get_mocap_features M qpos max_qvel dt adjust_z_offset verbatim null_xyr).features.velocity =
        (get_mocap_features M qpos max_qvel dt 0 verbatim null_xyr).features.velocity ∧
      (get_mocap_features M qpos max_qvel dt adjust_z_offset verbatim
          null_xyr).features.angular_velocity =
        (get_mocap_features M qpos max_qvel dt 0 verbatim null_xyr).features.angular_velocity ∧
      (get_mocap_features M qpos max_qvel dt adjust_z_offset verbatim
          null_xyr).features.joints_velocity =
        (get_mocap_features M qpos max_qvel dt 0 verbatim null_xyr).features.joints_velocity := by
  constructor
  · intro traj c
    exact cvk_map_set2 M traj dt (fun x => x + c) (by intro x y; ring)
  · intro qpos mq adj v n
    rw [gmf_velocity, gmf_velocity, gmf_angular_velocity, gmf_angular_velocity,
      gmf_joints_velocity, gmf_joints_velocity, gmfQvel2_adj]
    exact ⟨rfl, rfl, rfl⟩

/-- C4: sequential chunking in `NpmpPreprocessor.extract_features` produces
clip start offsets exactly `0, clip_length, 2 * clip_length, ...` while the
start is below `n_steps`; every clip's end
`min(start + clip_length + max(ref_steps) + 1, n_steps)` stays within
`n_steps`; every frame index below `n_steps` lies in some clip's core range
`[start, start + clip_length)`; and for `n_steps = 10000`,
`clip_length = 2500` with the default `ref_steps` the starts are
`0, 2500, 5000, 7500`. -/
theorem C4_sequential_chunking (n_steps clip_length : ℕ) (ref_steps : List ℕ)
    (hL : 1 ≤ clip_length) :
    (∀ s, s ∈ chunkStarts n_steps clip_length ↔
      ∃ k, s = k * clip_length ∧ s < n_steps) ∧
    (∀ s ∈ chunkStarts n_steps clip_length,
      clipEnd n_steps clip_length (max_reference_index ref_steps) s ≤ n_steps) ∧
    (∀ i < n_steps, ∃ s ∈ chunkStarts n_steps clip_length,
      s ≤ i ∧ i < s + clip_length) ∧
    chunkStarts 10000 2500 = [0, 2500, 5000, 7500] ∧
    max_reference_index defaultRefSteps = 11 := by
  have hmem : ∀ s, s ∈ chunkStarts n_steps clip_length ↔
      ∃ k, s = k * clip_length ∧ s < n_steps := by
    intro s
    unfold chunkStarts
    rw [List.mem_range']
    constructor
    · rintro ⟨i, hi, rfl⟩
      refine ⟨i, by ring, ?_⟩
      have h1 : i + 1 ≤ (n_steps + clip_length - 1) / clip_length := hi
      have h2 : (i + 1) * clip_length ≤ n_steps + clip_length - 1 :=
        (Nat.le_div_iff_mul_le hL).mp h1
      have h3 : (i + 1) * clip_length = i * clip_length + clip_length := by ring
      have h4 : clip_length * i = i * clip_length := by ring
      omega
    · rintro ⟨k, rfl, hk⟩
      refine ⟨k, ?_, by ring⟩
      have e1 : (k + 1) * clip_length = k * clip_length + clip_length := by ring
      have h2 : (k + 1) * clip_length ≤ n_steps + clip_length - 1 := by omega
      have h1 : k + 1 ≤ (n_steps + clip_length - 1) / clip_length :=
        (Nat.le_div_iff_mul_le hL).mpr h2
      omega
  refine ⟨hmem, ?_, ?_, by decide, by decide⟩
  · intro s _
    exact min_le_right _ _
  · intro i hi
    refine ⟨i / clip_length * clip_length, ?_, ?_, ?_⟩
    · exact (hmem _).mpr ⟨i / clip_length, rfl,
        lt_of_le_of_lt (Nat.div_mul_le_self i clip_length) hi⟩
    · exact Nat.div_mul_le_self i clip_length
    · have h1 := Nat.div_add_mod i clip_length
      have h2 := Nat.mod_lt i (show 0 < clip_length by omega)
      have h3 : clip_length * (i / clip_length) = i / clip_length * clip_length := by ring
      omega

/-- Witness for C4 at `n_steps = 10000`, `clip_length = 2500`, default
`ref_steps`. -/
theorem C4_sequential_chunking_witness :
    (∀ s, s ∈ chunkStarts 10000 2500 ↔ ∃ k, s = k * 2500 ∧ s < 10000) ∧
    (∀ s ∈ chunkStarts 10000 2500,
      clipEnd 10000 2500 (max_reference_index defaultRefSteps) s ≤ 10000) ∧
    (∀ i < 10000, ∃ s ∈ chunkStarts 10000 2500, s ≤ i ∧ i < s + 2500) ∧
    chunkStarts 10000 2500 = [0, 2500, 5000, 7500] ∧
    max_reference_index defaultRefSteps = 11 :=
  C4_sequential_chunking 10000 2500 defaultRefSteps (by norm_num)

/-- C7: `merge_preprocessed_files` collects exactly the files containing
`.hdf5` and not containing `total` (so the prior merged output `total.hdf5`
is excluded), processes them in ascending order of the numeric value of the
filename stem, and writes clip names `clip_` followed by the stem; in
particular files `2.hdf5`, `10.hdf5`, `1.hdf5` are processed numerically as
1, 2, 10 — not lexically — producing clips `clip_1, clip_2, clip_10`. -/
theorem C7_merge_order (listing : List String) :
    (mergeOrder listing).Perm
      (listing.filter fun f => strContains f ".hdf5" && !strContains f "total") ∧
    (mergeOrder listing).Sorted (fun a b => fileKey a ≤ fileKey b) ∧
    mergeClipNames listing = (mergeOrder listing).map (fun f => "clip_" ++ fileStem f) ∧
    mergeOrder ["2.hdf5", "10.hdf5", "1.hdf5", "total.hdf5"] =
      ["1.hdf5", "2.hdf5", "10.hdf5"] ∧
    mergeClipNames ["2.hdf5", "10.hdf5", "1.hdf5", "total.hdf5"] =
      ["clip_1", "clip_2", "clip_10"] := by
  haveI hto : IsTotal String fun a b => fileKey a ≤ fileKey b :=
    ⟨fun a b => Nat.le_total _ _⟩
  haveI htr : IsTrans String fun a b => fileKey a ≤ fileKey b :=
    ⟨fun a b c hab hbc => le_trans hab hbc⟩
  refine ⟨?_, ?_, rfl, by decide, by decide⟩
  · exact List.perm_insertionSort _ _
  · exact List.sorted_insertionSort _ _

/-- C8: the clip serializer writes the time-step attribute as the fixed
constant `0.02 = 2/100`, independent of the caller-supplied `dt`, and writes
the frame-count attribute equal to the temporal length of the center-of-mass
sequence. -/
theorem C8_save_features_attrs (dt : ℚ) (F : MocapFeatures) (clip_name : String) :
    (save_features dt (featurePairs F) clip_name).2.dtAttr = 2 / 100 ∧
    (save_features dt (featurePairs F) clip_name).2.num_steps =
      F.center_of_mass.length ∧
    ∀ dt' : ℚ,
      save_features dt (featurePairs F) clip_name =
        save_features dt' (featurePairs F) clip_name :=
  ⟨rfl, rfl, fun _ => rfl⟩

theorem clip1_of_mem (lo hi x : ℚ) (h1 : lo ≤ x) (h2 : x ≤ hi) : clip1 lo hi x = x := by
  unfold clip1
  rw [max_eq_left h1, min_eq_left h2]

theorem rabs_eq_abs (x : ℚ) : rabs x = |x| := by
  unfold rabs
  split
  · next h => rw [abs_of_neg h]
  · next h => rw [abs_of_nonneg (not_lt.mp h)]

theorem getD_clipRow (mins maxs row : List ℚ) (j : ℕ)
    (hj1 : j < mins.length) (hj2 : j < maxs.length) (hj3 : j < row.length) :
    (clipRow mins maxs row).getD j 0 =
      clip1 (mins.getD j 0) (maxs.getD j 0) (row.getD j 0) := by
  unfold clipRow
  have hz : j < (mins.zip maxs).length := by rw [List.length_zip]; omega
  have hw : j < (List.zipWith (fun p x => clip1 p.1 p.2 x) (mins.zip maxs) row).length := by
    rw [List.length_zipWith, List.length_zip]; omega
  rw [List.getD_eq_getElem _ _ hw, List.getElem_zipWith, List.getElem_zip,
    List.getD_eq_getElem _ _ hj1, List.getD_eq_getElem _ _ hj2, List.getD_eq_getElem _ _ hj3]

theorem rowDiagRecords_self (names : List String) (i : ℕ) (r : List ℚ) :
    rowDiagRecords names i r r = [] := by
  unfold rowDiagRecords
  rw [List.filterMap_eq_nil_iff]
  rintro ⟨k, a, b⟩ hp
  have hz : r.zip r = r.map fun x => (x, x) := by
    rw [List.zip_eq_zipWith]
    exact List.zipWith_same _ r
  rw [hz, List.mk_mem_enum_iff_getElem?, List.getElem?_map] at hp
  have hab : a = b := by
    cases he : r[k]? with
    | none => rw [he] at hp; simp at hp
    | some x =>
      rw [he] at hp
      have hp2 : some (x, x) = some (a, b) := hp
      cases hp2
      rfl
  rw [if_neg]
  intro hcond
  exact hcond.1 hab

theorem clipDiagnostics_self (names : List String) (l : List (List ℚ)) (v : Bool) :
    clipDiagnostics names l l v = [] := by
  unfold clipDiagnostics
  cases v with
  | false => simp
  | true =>
    simp only [if_pos]
    rw [List.flatten_eq_nil_iff]
    intro x hx
    rw [List.mem_map] at hx
    obtain ⟨⟨k, a, b⟩, hr, rfl⟩ := hx
    have hz : l.zip l = l.map fun x => (x, x) := by
      rw [List.zip_eq_zipWith]
      exact List.zipWith_same _ l
    rw [hz, List.mk_mem_enum_iff_getElem?, List.getElem?_map] at hr
    have hab : a = b := by
      cases he : l[k]? with
      | none => rw [he] at hr; simp at hr
      | some x =>
        rw [he] at hr
        have hr2 : some (x, x) = some (a, b) := hr
        cases hr2
        rfl
    rw [hab]
    exact rowDiagRecords_self names k b

theorem mem_clipDiagnostics (names : List String) (orig clipped : List (List ℚ))
    (v : Bool) (i j : ℕ)
    (hi : i < orig.length) (hic : i < clipped.length)
    (hj : j < (orig.getD i []).length) (hjc : j < (clipped.getD i []).length) :
    ((i, names.getD j "", (orig.getD i []).getD j 0, (clipped.getD i []).getD j 0) : Diag)
        ∈ clipDiagnostics names orig clipped v ↔
      v = true ∧ (orig.getD i []).getD j 0 ≠ (clipped.getD i []).getD j 0 ∧
        rabs ((orig.getD i []).getD j 0 - (clipped.getD i []).getD j 0) ≥ 1 / 10 := by
  unfold clipDiagnostics
  cases v with
  | false => simp
  | true =>
    simp only [if_pos, true_and]
    rw [List.mem_flatten]
    constructor
    · rintro ⟨l, hl, hmem⟩
      rw [List.mem_map] at hl
      obtain ⟨⟨k, ro, rc⟩, _, rfl⟩ := hl
      unfold rowDiagRecords at hmem
      rw [List.mem_filterMap] at hmem
      obtain ⟨⟨m, a, c⟩, _, hsome⟩ := hmem
      by_cases hcond : a ≠ c ∧ rabs (a - c) ≥ (1 : ℚ) / 10
      · rw [if_pos hcond] at hsome
        have he : ((k, names.getD m "", a, c) : Diag) =
            (i, names.getD j "", (orig.getD i []).getD j 0, (clipped.getD i []).getD j 0) :=
          Option.some.inj hsome
        have ha : a = (orig.getD i []).getD j 0 := congrArg (fun p => p.2.2.1) he
        have hc : c = (clipped.getD i []).getD j 0 := congrArg (fun p => p.2.2.2) he
        rw [ha, hc] at hcond
        exact hcond
      · rw [if_neg hcond] at hsome
        cases hsome
    · rintro ⟨hne, hge⟩
      refine ⟨rowDiagRecords names i (orig.getD i []) (clipped.getD i []), ?_, ?_⟩
      · rw [List.mem_map]
        refine ⟨(i, (orig.getD i [], clipped.getD i [])), ?_, rfl⟩
        rw [List.mk_mem_enum_iff_getElem?]
        have hiz : i < (orig.zip clipped).length := by
          rw [List.length_zip]; omega
        rw [List.getElem?_eq_getElem hiz, List.getElem_zip]
        rw [List.getD_eq_getElem _ _ hi, List.getD_eq_getElem _ _ hic]
      · unfold rowDiagRecords
        rw [List.mem_filterMap]
        refine ⟨(j, ((orig.getD i []).getD j 0, (clipped.getD i []).getD j 0)), ?_, ?_⟩
        · rw [List.mk_mem_enum_iff_getElem?]
          have hjz : j < ((orig.getD i []).zip (clipped.getD i [])).length := by
            rw [List.length_zip]; omega
          rw [List.getElem?_eq_getElem hjz, List.getElem_zip]
          rw [List.getD_eq_getElem _ _ hj, List.getD_eq_getElem _ _ hjc]
        · rw [if_pos ⟨hne, hge⟩]

theorem length_gmfAngles (qpos : List (List ℚ)) : (gmfAngles qpos).length = qpos.length := by
  unfold gmfAngles
  simp

theorem length_gmfClippedAngles (M : PhysicsModel) (qpos : List (List ℚ)) :
    (gmfClippedAngles M qpos).length = qpos.length := by
  unfold gmfClippedAngles
  rw [List.length_map, length_gmfAngles]

theorem length_gmfClippedQpos (M : PhysicsModel) (qpos : List (List ℚ)) :
    (gmfClippedQpos M qpos).length = qpos.length := by
  unfold gmfClippedQpos
  rw [List.length_zipWith, length_gmfClippedAngles]
  omega

theorem getD_gmfAngles (qpos : List (List ℚ)) (i : ℕ) (hi : i < qpos.length) :
    (gmfAngles qpos).getD i [] = (qpos.getD i []).drop 7 := by
  unfold gmfAngles
  rw [List.getD_eq_getElem _ _ (by simpa using hi), List.getElem_map,
    List.getD_eq_getElem _ _ hi]

theorem getD_gmfClippedAngles (M : PhysicsModel) (qpos : List (List ℚ)) (i : ℕ)
    (hi : i < qpos.length) :
    (gmfClippedAngles M qpos).getD i [] =
      clipRow M.jointMin M.jointMax ((qpos.getD i []).drop 7) := by
  unfold gmfClippedAngles
  rw [List.getD_eq_getElem _ _ (by rw [List.length_map, length_gmfAngles]; omega),
    List.getElem_map]
  congr 1
  rw [← getD_gmfAngles qpos i hi, List.getD_eq_getElem _ _ (by rw [length_gmfAngles]; omega)]

theorem getD_gmfClippedQpos (M : PhysicsModel) (qpos : List (List ℚ)) (i : ℕ)
    (hi : i < qpos.length) :
    (gmfClippedQpos M qpos).getD i [] =
      (qpos.getD i []).take 7 ++ clipRow M.jointMin M.jointMax ((qpos.getD i []).drop 7) := by
  unfold gmfClippedQpos
  have hiz : i <
      (List.zipWith (fun row c => row.take 7 ++ c) qpos (gmfClippedAngles M qpos)).length := by
    rw [List.length_zipWith, length_gmfClippedAngles]
    omega
  rw [List.getD_eq_getElem _ _ hiz, List.getElem_zipWith]
  congr 1
  · rw [List.getD_eq_getElem _ _ hi]
  · rw [← getD_gmfClippedAngles M qpos i hi,
      List.getD_eq_getElem _ _ (show i < (gmfClippedAngles M qpos).length by
        rw [length_gmfClippedAngles]; omega)]

theorem clipDiagnostics_false (names : List String) (orig clipped : List (List ℚ)) :
    clipDiagnostics names orig clipped false = [] := rfl

/-- C2 (amended): in `get_mocap_features`, every joint angle (pose columns
after the first 7) is replaced by `clip(value, joint_min, joint_max)`, so an
angle exactly at its range boundary is unchanged; a diagnostic record naming
the frame index, joint name, original value, and clipped value is emitted for
a clipped value if and only if `verbatim` is true and the deviation between
original and clipped value is at least 0.1 (the source tests `>= 0.1`, not
`> 0.1`); under `verbatim = false`, or when no value is clipped, zero
diagnostic records are emitted. -/
theorem C2_angle_clip_diagnostics (M : PhysicsModel) (qpos : List (List ℚ))
    (mq dt adj : ℚ) (v n : Bool) (i j : ℕ)
    (hi : i < qpos.length)
    (hj1 : j < M.jointMin.length) (hj2 : j < M.jointMax.length)
    (hj3 : 7 + j < (qpos.getD i []).length) :
    ((get_mocap_features M qpos mq dt adj v n).callerQpos.getD i []).getD (7 + j) 0 =
      clip1 (M.jointMin.getD j 0) (M.jointMax.getD j 0)
        (((qpos.getD i []).drop 7).getD j 0) ∧
    (M.jointMin.getD j 0 ≤ ((qpos.getD i []).drop 7).getD j 0 →
      ((qpos.getD i []).drop 7).getD j 0 ≤ M.jointMax.getD j 0 →
      ((get_mocap_features M qpos mq dt adj v n).callerQpos.getD i []).getD (7 + j) 0 =
        ((qpos.getD i []).drop 7).getD j 0) ∧
    (((i, M.jointNames.getD j "", ((qpos.getD i []).drop 7).getD j 0,
          clip1 (M.jointMin.getD j 0) (M.jointMax.getD j 0)
            (((qpos.getD i []).drop 7).getD j 0)) : Diag)
        ∈ (get_mocap_features M qpos mq dt adj v n).angleDiags ↔
      v = true ∧
        |((qpos.getD i []).drop 7).getD j 0 -
            clip1 (M.jointMin.getD j 0) (M.jointMax.getD j 0)
              (((qpos.getD i []).drop 7).getD j 0)| ≥ 1 / 10) ∧
    (v = false → (get_mocap_features M qpos mq dt adj v n).angleDiags = []) ∧
    (gmfClippedAngles M qpos = gmfAngles qpos →
      (get_mocap_features M qpos mq dt adj v n).angleDiags = []) := by
  have hd : j < ((qpos.getD i []).drop 7).length := by
    rw [List.length_drop]; omega
  have hcaller : ((get_mocap_features M qpos mq dt adj v n).callerQpos.getD i []).getD (7 + j) 0 =
      clip1 (M.jointMin.getD j 0) (M.jointMax.getD j 0)
        (((qpos.getD i []).drop 7).getD j 0) := by
    rw [gmf_callerQpos, getD_gmfClippedQpos M qpos i hi]
    have h7 : ((qpos.getD i []).take 7).length = 7 := by
      rw [List.length_take]; omega
    rw [List.getD_append_right _ _ _ _ (by omega), h7]
    have : 7 + j - 7 = j := by omega
    rw [this, getD_clipRow _ _ _ _ hj1 hj2 hd]
  refine ⟨hcaller, ?_, ?_, ?_, ?_⟩
  · intro hlo hhi
    rw [hcaller, clip1_of_mem _ _ _ hlo hhi]
  · have hmem := mem_clipDiagnostics M.jointNames (gmfAngles qpos)
      (gmfClippedAngles M qpos) v i j
      (by rw [length_gmfAngles]; omega) (by rw [length_gmfClippedAngles]; omega)
      (by rw [getD_gmfAngles qpos i hi]; omega)
      (by rw [getD_gmfClippedAngles M qpos i hi]
          unfold clipRow
          rw [List.length_zipWith, List.length_zip]
          omega)
    rw [getD_gmfAngles qpos i hi, getD_gmfClippedAngles M qpos i hi,
      getD_clipRow _ _ _ _ hj1 hj2 hd, rabs_eq_abs] at hmem
    rw [gmf_angleDiags]
    rw [hmem]
    constructor
    · rintro ⟨hv, -, hge⟩
      exact ⟨hv, hge⟩
    · rintro ⟨hv, hge⟩
      refine ⟨hv, ?_, hge⟩
      intro heq
      rw [sub_eq_zero.mpr heq, abs_zero] at hge
      norm_num at hge
  · intro hv
    rw [gmf_angleDiags, hv, clipDiagnostics_false]
  · intro hcl
    rw [gmf_angleDiags, hcl, clipDiagnostics_self]

/-- C2 counterexample: with joint range `[0, 1]` and angle `11/10` the
deviation equals exactly `0.1`; the claim as stated (record iff deviation
exceeds `0.1`) predicts no record under `verbatim = true`, but the code
emits one because it tests `>= 0.1`. -/
theorem C2_counterexample :
    (get_mocap_features M0 [[0, 0, 0, 1, 0, 0, 0, 11 / 10]] 20 (2 / 100) 0 true
        false).angleDiags = [(0, "j0", 11 / 10, 1)] ∧
    ¬ (|(11 : ℚ) / 10 - 1| > 1 / 10) := by
  constructor
  · with_unfolding_all decide
  · have h : (11 : ℚ) / 10 - 1 = 1 / 10 := by norm_num
    rw [h, abs_of_nonneg (by norm_num)]
    exact lt_irrefl _

/-- Witness for C2 at a concrete input: one frame, one joint with range
`[0, 1]`, angle `3/2` under `verbatim = true`. -/
theorem C2_angle_clip_diagnostics_witness :
    (((get_mocap_features M0 [[0, 0, 0, 1, 0, 0, 0, 3 / 2]] 20 (2 / 100) 0 true
          false).callerQpos.getD 0 []).getD (7 + 0) 0 =
      clip1 (M0.jointMin.getD 0 0) (M0.jointMax.getD 0 0)
        (((([[0, 0, 0, 1, 0, 0, 0, 3 / 2]] : List (List ℚ)).getD 0 []).drop 7).getD 0 0)) ∧
    (M0.jointMin.getD 0 0 ≤
        ((([[0, 0, 0, 1, 0, 0, 0, 3 / 2]] : List (List ℚ)).getD 0 []).drop 7).getD 0 0 →
      ((([[0, 0, 0, 1, 0, 0, 0, 3 / 2]] : List (List ℚ)).getD 0 []).drop 7).getD 0 0 ≤
        M0.jointMax.getD 0 0 →
      ((get_mocap_features M0 [[0, 0, 0, 1, 0, 0, 0, 3 / 2]] 20 (2 / 100) 0 true
          false).callerQpos.getD 0 []).getD (7 + 0) 0 =
        ((([[0, 0, 0, 1, 0, 0, 0, 3 / 2]] : List (List ℚ)).getD 0 []).drop 7).getD 0 0) ∧
    (((0, M0.jointNames.getD 0 "",
          ((([[0, 0, 0, 1, 0, 0, 0, 3 / 2]] : List (List ℚ)).getD 0 []).drop 7).getD 0 0,
          clip1 (M0.jointMin.getD 0 0) (M0.jointMax.getD 0 0)
            (((([[0, 0, 0, 1, 0, 0, 0, 3 / 2]] : List (List ℚ)).getD 0 []).drop 7).getD 0
              0)) : Diag)
        ∈ (get_mocap_features M0 [[0, 0, 0, 1, 0, 0, 0, 3 / 2]] 20 (2 / 100) 0 true
            false).angleDiags ↔
      true = true ∧
        |((([[0, 0, 0, 1, 0, 0, 0, 3 / 2]] : List (List ℚ)).getD 0 []).drop 7).getD 0 0 -
            clip1 (M0.jointMin.getD 0 0) (M0.jointMax.getD 0 0)
              (((([[0, 0, 0, 1, 0, 0, 0, 3 / 2]] : List (List ℚ)).getD 0 []).drop
                  7).getD 0 0)| ≥ 1 / 10) ∧
    (true = false →
      (get_mocap_features M0 [[0, 0, 0, 1, 0, 0, 0, 3 / 2]] 20 (2 / 100) 0 true
          false).angleDiags = []) ∧
    (gmfClippedAngles M0 [[0, 0, 0, 1, 0, 0, 0, 3 / 2]] =
        gmfAngles [[0, 0, 0, 1, 0, 0, 0, 3 / 2]] →
      (get_mocap_features M0 [[0, 0, 0, 1, 0, 0, 0, 3 / 2]] 20 (2 / 100) 0 true
          false).angleDiags = []) :=
  C2_angle_clip_diagnostics M0 [[0, 0, 0, 1, 0, 0, 0, 3 / 2]] 20 (2 / 100) 0 true false 0 0
    (by decide) (by decide) (by decide) (by decide)

/-- C6 counterexample: with joint range `[0, 1]` and an out-of-range angle
`2`, the caller-supplied trajectory array is mutated in place by
`mocap_qpos[:, 7:] = clipped_angles`: after the call it no longer equals the
original input, contradicting the claim that it is left unchanged. -/
theorem C6_counterexample :
    (get_mocap_features M0 [[0, 0, 0, 1, 0, 0, 0, 2]] 20 (2 / 100) 0 false
        false).callerQpos ≠ [[0, 0, 0, 1, 0, 0, 0, 2]] := by
  with_unfolding_all decide

/-- C6 (amended): `get_mocap_features` writes the clipped joint angles back
into the caller-supplied array, so after the call the caller's array equals
the original with each joint angle replaced by
`clip(value, joint_min, joint_max)`; it is unchanged precisely when no angle
is out of range.  The padding, ground alignment and velocity stages operate
on a separate local copy: the caller's array does not depend on
`max_qvel`, `dt`, `adjust_z_offset`, `verbatim` or `null_xyr`. -/
theorem C6_caller_array (M : PhysicsModel) (qpos : List (List ℚ)) (mq dt adj : ℚ)
    (v n : Bool) :
    (get_mocap_features M qpos mq dt adj v n).callerQpos =
      qpos.map (fun row => row.take 7 ++ clipRow M.jointMin M.jointMax (row.drop 7)) ∧
    ((∀ row ∈ qpos, clipRow M.jointMin M.jointMax (row.drop 7) = row.drop 7) →
      (get_mocap_features M qpos mq dt adj v n).callerQpos = qpos) ∧
    ∀ (mq' dt' adj' : ℚ) (v' n' : Bool),
      (get_mocap_features M qpos mq' dt' adj' v' n').callerQpos =
        (get_mocap_features M qpos mq dt adj v n).callerQpos := by
  have hmain : (get_mocap_features M qpos mq dt adj v n).callerQpos =
      qpos.map (fun row => row.take 7 ++ clipRow M.jointMin M.jointMax (row.drop 7)) := by
    rw [gmf_callerQpos]
    unfold gmfClippedQpos gmfClippedAngles gmfAngles
    rw [List.map_map, List.zipWith_map_right, List.zipWith_same]
    rfl
  refine ⟨hmain, ?_, fun _ _ _ _ _ => rfl⟩
  intro hin
  rw [hmain]
  have : qpos.map (fun row => row.take 7 ++ clipRow M.jointMin M.jointMax (row.drop 7)) =
      qpos.map id := by
    apply List.map_congr_left
    intro row hrow
    rw [hin row hrow, List.take_append_drop]
    rfl
  rw [this, List.map_id]

/-- Witness for C6 at a concrete input: one frame whose single joint angle
`1/2` lies inside the range `[0, 1]`, so the caller array is untouched. -/
theorem C6_caller_array_witness :
    (get_mocap_features M0 [[0, 0, 0, 1, 0, 0, 0, 1 / 2]] 20 (2 / 100) 0 false
        false).callerQpos = [[0, 0, 0, 1, 0, 0, 0, 1 / 2]] :=
  (C6_caller_array M0 [[0, 0, 0, 1, 0, 0, 0, 1 / 2]] 20 (2 / 100) 0 false false).2.1
    (by with_unfolding_all decide)

/-- C5 counterexample: `set_walker` under `null_xyr` executes
`qpos[:3] = 0.0`, zeroing x, y and z; on a pose with root z translation 5 the
applied z translation is 0, not the original 5 the claim promises. -/
theorem C5_counterexample :
    (set_walker M0 [1, 2, 5, 1, 0, 0, 0, 4] true 0).getD 2 0 = 0 ∧
    ([1, 2, 5, 1, 0, 0, 0, 4] : List ℚ).getD 2 0 = 5 ∧ (0 : ℚ) ≠ 5 := by
  with_unfolding_all decide

/-- C5 (amended): when `set_walker` is called with `null_xyr = true` (and the
zero offset used throughout this repository), all three root translation
components — x, y and z — are zeroed before the pose is applied, and the
root orientation is decomposed into a ZYX Euler sequence whose first (yaw)
component is zeroed before reconstructing the quaternion, leaving the
remaining (pitch and roll) components intact. -/
theorem C5_null_xyr_applied_pose (M : PhysicsModel) (qpos : List ℚ)
    (heuler : (M.quatToEulerZYX ((qpos.drop 3).take 4)).length = 3) :
    set_walker M qpos true 0 =
      [0, 0, 0] ++ M.eulerToQuatZYX ((M.quatToEulerZYX ((qpos.drop 3).take 4)).set 0 0)
        ++ qpos.drop 7 ∧
    ((M.quatToEulerZYX ((qpos.drop 3).take 4)).set 0 0).getD 0 0 = 0 ∧
    ((M.quatToEulerZYX ((qpos.drop 3).take 4)).set 0 0).tail =
      (M.quatToEulerZYX ((qpos.drop 3).take 4)).tail := by
  refine ⟨?_, ?_, ?_⟩
  · simp only [set_walker, if_true]
    have h3 : (List.replicate 3 (0 : ℚ)).length = 3 := by simp
    have hd3 : (List.replicate 3 (0 : ℚ) ++ qpos.drop 3).drop 3 = qpos.drop 3 :=
      List.drop_left' h3
    have ht3 : (List.replicate 3 (0 : ℚ) ++ qpos.drop 3).take 3 = List.replicate 3 0 :=
      List.take_left' h3
    have hd7 : (List.replicate 3 (0 : ℚ) ++ qpos.drop 3).drop 7 = qpos.drop 7 := by
      rw [List.drop_append_eq_append_drop, List.drop_eq_nil_of_le (by simp), List.drop_drop]
      simp
    rw [hd3, ht3, hd7]
    have hrep : (List.replicate 3 (0 : ℚ)) = [0, 0, 0] := rfl
    rw [hrep]
    set quat := M.eulerToQuatZYX ((M.quatToEulerZYX ((qpos.drop 3).take 4)).set 0 0)
    have htk : (([0, 0, 0] : List ℚ) ++ (quat ++ qpos.drop 7)).take 3 = [0, 0, 0] :=
      List.take_left' rfl
    have hdr : (([0, 0, 0] : List ℚ) ++ (quat ++ qpos.drop 7)).drop 3 = quat ++ qpos.drop 7 :=
      List.drop_left' rfl
    rw [List.append_assoc, htk, hdr, ← List.append_assoc]
    norm_num
  · rcases he : M.quatToEulerZYX ((qpos.drop 3).take 4) with _ | ⟨a, t⟩
    · rw [he] at heuler
      simp at heuler
    · rfl
  · rcases M.quatToEulerZYX ((qpos.drop 3).take 4) with _ | ⟨a, t⟩ <;> rfl

/-- Witness for C5 at a concrete pose with nonzero x, y, z translation. -/
theorem C5_null_xyr_applied_pose_witness :
    (set_walker M0 [1, 2, 5, 1, 0, 0, 0, 4] true 0 =
      [0, 0, 0] ++ M0.eulerToQuatZYX
          ((M0.quatToEulerZYX ((([1, 2, 5, 1, 0, 0, 0, 4] : List ℚ).drop 3).take 4)).set 0 0)
        ++ ([1, 2, 5, 1, 0, 0, 0, 4] : List ℚ).drop 7) ∧
    ((M0.quatToEulerZYX ((([1, 2, 5, 1, 0, 0, 0, 4] : List ℚ).drop 3).take 4)).set 0
        0).getD 0 0 = 0 ∧
    ((M0.quatToEulerZYX ((([1, 2, 5, 1, 0, 0, 0, 4] : List ℚ).drop 3).take 4)).set 0
        0).tail =
      (M0.quatToEulerZYX ((([1, 2, 5, 1, 0, 0, 0, 4] : List ℚ).drop 3).take 4)).tail :=
  C5_null_xyr_applied_pose M0 [1, 2, 5, 1, 0, 0, 0, 4] rfl

theorem length_gmfPadded (M : PhysicsModel) (qpos : List (List ℚ)) :
    (gmfPadded M qpos).length = qpos.length + 1 := by
  unfold gmfPadded
  rw [List.length_append, length_gmfClippedQpos]
  rfl

theorem length_gmfApplied (M : PhysicsModel) (qpos : List (List ℚ)) (n : Bool) :
    (gmfApplied M qpos n).length = qpos.length := by
  unfold gmfApplied
  rw [List.length_map, List.length_dropLast, length_gmfPadded]
  omega

theorem length_gmfWorking (M : PhysicsModel) (qpos : List (List ℚ)) (adj : ℚ) (n : Bool) :
    (gmfWorking M qpos adj n).length = qpos.length + 1 := by
  unfold gmfWorking
  rw [List.length_map, length_gmfPadded]

theorem length_gmfQvel (M : PhysicsModel) (qpos : List (List ℚ)) (dt adj : ℚ) (n : Bool) :
    (gmfQvel M qpos dt adj n).length = qpos.length := by
  unfold gmfQvel
  rw [length_cvk, length_gmfWorking]
  omega

theorem length_gmfQvel2 (M : PhysicsModel) (qpos : List (List ℚ)) (mq dt adj : ℚ)
    (n : Bool) :
    (gmfQvel2 M qpos mq dt adj n).length = qpos.length := by
  unfold gmfQvel2 gmfClippedVels gmfVels
  rw [List.length_zipWith, List.length_map, List.length_map, length_gmfQvel]
  simp

/-- C9: for every input trajectory of `N ≥ 1` frames, every per-quantity
sequence returned by `get_mocap_features` — positions, quaternions, joints,
center of mass, end-effectors, appendages, body positions, body quaternions
and the three velocity sequences — has the same temporal length `N`: the
repeated final pose appended before differencing absorbs the frame lost to
the finite difference. -/
theorem C9_uniform_lengths (M : PhysicsModel) (qpos : List (List ℚ))
    (mq dt adj : ℚ) (v n : Bool) (N : ℕ) (hN : qpos.length = N) (h1 : 1 ≤ N) :
    (get_mocap_features M qpos mq dt adj v n).features.position.length = N ∧
    (get_mocap_features M qpos mq dt adj v n).features.quaternion.length = N ∧
    (get_mocap_features M qpos mq dt adj v n).features.joints.length = N ∧
    (get_mocap_features M qpos mq dt adj v n).features.center_of_mass.length = N ∧
    (get_mocap_features M qpos mq dt adj v n).features.end_effectors.length = N ∧
    (get_mocap_features M qpos mq dt adj v n).features.appendages.length = N ∧
    (get_mocap_features M qpos mq dt adj v n).features.body_positions.length = N ∧
    (get_mocap_features M qpos mq dt adj v n).features.body_quaternions.length = N ∧
    (get_mocap_features M qpos mq dt adj v n).features.velocity.length = N ∧
    (get_mocap_features M qpos mq dt adj v n).features.angular_velocity.length = N ∧
    (get_mocap_features M qpos mq dt adj v n).features.joints_velocity.length = N := by
  refine ⟨?_, ?_, ?_, ?_, ?_, ?_, ?_, ?_, ?_, ?_, ?_⟩
  · rw [gmf_position, List.length_map, List.length_map, length_gmfApplied, hN]
  · rw [gmf_quaternion, List.length_map, length_gmfApplied, hN]
  · rw [gmf_joints, List.length_map, length_gmfApplied, hN]
  · rw [gmf_com, List.length_map, List.length_map, length_gmfApplied, hN]
  · rw [gmf_end_effectors, List.length_map, length_gmfApplied, hN]
  · rw [gmf_appendages, List.length_map, length_gmfApplied, hN]
  · rw [gmf_body_positions, List.length_map, List.length_map, length_gmfApplied, hN]
  · rw [gmf_body_quaternions, List.length_map, length_gmfApplied, hN]
  · rw [gmf_velocity, List.length_map, length_gmfQvel2, hN]
  · rw [gmf_angular_velocity, List.length_map, length_gmfQvel2, hN]
  · rw [gmf_joints_velocity, List.length_map, length_gmfQvel2, hN]

/-- Witness for C9 at a concrete one-frame trajectory. -/
theorem C9_uniform_lengths_witness :
    (get_mocap_features M0 [[0, 0, 0, 1, 0, 0, 0, 0]] 20 (2 / 100) 0 false
        false).features.position.length = 1 ∧
    (get_mocap_features M0 [[0, 0, 0, 1, 0, 0, 0, 0]] 20 (2 / 100) 0 false
        false).features.quaternion.length = 1 ∧
    (get_mocap_features M0 [[0, 0, 0, 1, 0, 0, 0, 0]] 20 (2 / 100) 0 false
        false).features.joints.length = 1 ∧
    (get_mocap_features M0 [[0, 0, 0, 1, 0, 0, 0, 0]] 20 (2 / 100) 0 false
        false).features.center_of_mass.length = 1 ∧
    (get_mocap_features M0 [[0, 0, 0, 1, 0, 0, 0, 0]] 20 (2 / 100) 0 false
        false).features.end_effectors.length = 1 ∧
    (get_mocap_features M0 [[0, 0, 0, 1, 0, 0, 0, 0]] 20 (2 / 100) 0 false
        false).features.appendages.length = 1 ∧
    (get_mocap_features M0 [[0, 0, 0, 1, 0, 0, 0, 0]] 20 (2 / 100) 0 false
        false).features.body_positions.length = 1 ∧
    (get_mocap_features M0 [[0, 0, 0, 1, 0, 0, 0, 0]] 20 (2 / 100) 0 false
        false).features.body_quaternions.length = 1 ∧
    (get_mocap_features M0 [[0, 0, 0, 1, 0, 0, 0, 0]] 20 (2 / 100) 0 false
        false).features.velocity.length = 1 ∧
    (get_mocap_features M0 [[0, 0, 0, 1, 0, 0, 0, 0]] 20 (2 / 100) 0 false
        false).features.angular_velocity.length = 1 ∧
    (get_mocap_features M0 [[0, 0, 0, 1, 0, 0, 0, 0]] 20 (2 / 100) 0 false
        false).features.joints_velocity.length = 1 :=
  C9_uniform_lengths M0 [[0, 0, 0, 1, 0, 0, 0, 0]] 20 (2 / 100) 0 false false 1 rfl le_rfl

theorem length_flatMap_two (l : List (List ℚ)) (f g : List ℚ → ℚ) :
    (l.flatMap fun x => [f x, g x]).length = 2 * l.length := by
  induction l with
  | nil => rfl
  | cons h t ih =>
    rw [List.flatMap_cons, List.length_append, ih]
    simp
    omega

theorem gmfZOffset_zero (M : PhysicsModel) (qpos : List (List ℚ)) (n : Bool) :
    gmfZOffset M qpos 0 n = 0 := by
  unfold gmfZOffset
  rw [if_neg]
  intro h
  exact h rfl

theorem map_map_subZ_zero (l : List (List (List ℚ))) : l.map (·.map (subZ 0)) = l := by
  induction l with
  | nil => rfl
  | cons h t ih => rw [List.map_cons, map_subZ_zero, ih]

/-- C3: when z-offset adjustment is requested (`adjust_z_offset` truthy) and
at least 10 foot-height samples exist (two per frame, so at least 5 frames),
the computed `z_offset` equals the mean of the 10 smallest recorded foot
heights minus `0.006`; the offset is subtracted from exactly the z-component
of the working trajectory copy, the root position array, the center-of-mass
array, and every per-body position — compared with an unadjusted run, those
four arrays are shifted by `subZ z_offset` while quaternions, joints,
end-effectors, appendages, body quaternions and the caller's array are
identical.  (The subtraction precedes velocity derivation; by the invariance
proved for C10 it leaves the velocity outputs unchanged, so it is not
re-stated here.) -/
theorem C3_ground_alignment (M : PhysicsModel) (qpos : List (List ℚ))
    (mq dt adj : ℚ) (v n : Bool) (hadj : adj ≠ 0) (h5 : 5 ≤ qpos.length) :
    (get_mocap_features M qpos mq dt adj v n).feetHeight.length = 2 * qpos.length ∧
    (∃ low rest : List ℚ,
      (get_mocap_features M qpos mq dt adj v n).feetHeight.Perm (low ++ rest) ∧
      low.length = 10 ∧
      (∀ x ∈ low, ∀ y ∈ rest, x ≤ y) ∧
      (get_mocap_features M qpos mq dt adj v n).zOffset = low.sum / 10 - 6 / 1000) ∧
    (get_mocap_features M qpos mq dt adj v n).workingQpos =
      ((get_mocap_features M qpos mq dt 0 v n).workingQpos).map
        (subZ ((get_mocap_features M qpos mq dt adj v n).zOffset)) ∧
    (get_mocap_features M qpos mq dt adj v n).features.position =
      ((get_mocap_features M qpos mq dt 0 v n).features.position).map
        (subZ ((get_mocap_features M qpos mq dt adj v n).zOffset)) ∧
    (get_mocap_features M qpos mq dt adj v n).features.center_of_mass =
      ((get_mocap_features M qpos mq dt 0 v n).features.center_of_mass).map
        (subZ ((get_mocap_features M qpos mq dt adj v n).zOffset)) ∧
    (get_mocap_features M qpos mq dt adj v n).features.body_positions =
      ((get_mocap_features M qpos mq dt 0 v n).features.body_positions).map
        (·.map (subZ ((get_mocap_features M qpos mq dt adj v n).zOffset))) ∧
    (get_mocap_features M qpos mq dt adj v n).features.quaternion =
      (get_mocap_features M qpos mq dt 0 v n).features.quaternion ∧
    (get_mocap_features M qpos mq dt adj v n).features.joints =
      (get_mocap_features M qpos mq dt 0 v n).features.joints ∧
    (get_mocap_features M qpos mq dt adj v n).features.end_effectors =
      (get_mocap_features M qpos mq dt 0 v n).features.end_effectors ∧
    (get_mocap_features M qpos mq dt adj v n).features.appendages =
      (get_mocap_features M qpos mq dt 0 v n).features.appendages ∧
    (get_mocap_features M qpos mq dt adj v n).features.body_quaternions =
      (get_mocap_features M qpos mq dt 0 v n).features.body_quaternions ∧
    (get_mocap_features M qpos mq dt adj v n).callerQpos =
      (get_mocap_features M qpos mq dt 0 v n).callerQpos := by
  have hfeet : (get_mocap_features M qpos mq dt adj v n).feetHeight.length =
      2 * qpos.length := by
    rw [gmf_feetHeight]
    unfold gmfFeetHeight
    rw [if_pos hadj]
    rw [length_flatMap_two]
    rw [length_gmfApplied]
  refine ⟨hfeet, ?_, ?_, ?_, ?_, ?_, rfl, rfl, rfl, rfl, rfl, rfl⟩
  · set feet := (get_mocap_features M qpos mq dt adj v n).feetHeight with hf
    set sorted := feet.insertionSort (· ≤ ·) with hs
    have hperm : feet.Perm sorted := (List.perm_insertionSort _ feet).symm
    have hlen : sorted.length = 2 * qpos.length := by
      rw [← hperm.length_eq, hfeet]
    refine ⟨sorted.take 10, sorted.drop 10, ?_, ?_, ?_, ?_⟩
    · rw [List.take_append_drop]
      exact hperm
    · rw [List.length_take, hlen]
      omega
    · have hsort : List.Pairwise (fun a b : ℚ => a ≤ b) sorted :=
        List.sorted_insertionSort _ feet
      rw [← List.take_append_drop 10 sorted, List.pairwise_append] at hsort
      exact hsort.2.2
    · rw [gmf_zOffset]
      simp only [gmfZOffset]
      rw [if_pos hadj]
      have hse : (gmfFeetHeight M qpos adj n).insertionSort (· ≤ ·) = sorted := by
        rw [hs, hf, gmf_feetHeight]
      rw [hse]
      have h10 : (sorted.take 10).length = 10 := by
        rw [List.length_take, hlen]
        omega
      rw [h10]
      norm_num
  · rw [gmf_workingQpos, gmf_workingQpos, gmf_zOffset]
    unfold gmfWorking
    rw [gmfZOffset_zero, map_subZ_zero]
  · rw [gmf_position, gmf_position, gmf_zOffset, gmfZOffset_zero, map_subZ_zero]
  · rw [gmf_com, gmf_com, gmf_zOffset, gmfZOffset_zero, map_subZ_zero]
  · rw [gmf_body_positions, gmf_body_positions, gmf_zOffset, gmfZOffset_zero,
      map_map_subZ_zero]

/-- Witness for C3: five frames whose foot heights are all 0, giving
`z_offset = 0/10 - 0.006 = -0.006`, matching the spec's synthetic example. -/
theorem C3_ground_alignment_witness :
    (get_mocap_features M0 [[0], [0], [0], [0], [0]] 20 (2 / 100) 1 false
        false).feetHeight.length = 2 * ([[0], [0], [0], [0], [0]] : List (List ℚ)).length ∧
    (∃ low rest : List ℚ,
      (get_mocap_features M0 [[0], [0], [0], [0], [0]] 20 (2 / 100) 1 false
          false).feetHeight.Perm (low ++ rest) ∧
      low.length = 10 ∧
      (∀ x ∈ low, ∀ y ∈ rest, x ≤ y) ∧
      (get_mocap_features M0 [[0], [0], [0], [0], [0]] 20 (2 / 100) 1 false
          false).zOffset = low.sum / 10 - 6 / 1000) ∧
    (get_mocap_features M0 [[0], [0], [0], [0], [0]] 20 (2 / 100) 1 false
        false).workingQpos =
      ((get_mocap_features M0 [[0], [0], [0], [0], [0]] 20 (2 / 100) 0 false
          false).workingQpos).map
        (subZ ((get_mocap_features M0 [[0], [0], [0], [0], [0]] 20 (2 / 100) 1 false
          false).zOffset)) ∧
    (get_mocap_features M0 [[0], [0], [0], [0], [0]] 20 (2 / 100) 1 false
        false).features.position =
      ((get_mocap_features M0 [[0], [0], [0], [0], [0]] 20 (2 / 100) 0 false
          false).features.position).map
        (subZ ((get_mocap_features M0 [[0], [0], [0], [0], [0]] 20 (2 / 100) 1 false
          false).zOffset)) ∧
    (get_mocap_features M0 [[0], [0], [0], [0], [0]] 20 (2 / 100) 1 false
        false).features.center_of_mass =
      ((get_mocap_features M0 [[0], [0], [0], [0], [0]] 20 (2 / 100) 0 false
          false).features.center_of_mass).map
        (subZ ((get_mocap_features M0 [[0], [0], [0], [0], [0]] 20 (2 / 100) 1 false
          false).zOffset)) ∧
    (get_mocap_features M0 [[0], [0], [0], [0], [0]] 20 (2 / 100) 1 false
        false).features.body_positions =
      ((get_mocap_features M0 [[0], [0], [0], [0], [0]] 20 (2 / 100) 0 false
          false).features.body_positions).map
        (·.map (subZ ((get_mocap_features M0 [[0], [0], [0], [0], [0]] 20 (2 / 100) 1
          false false).zOffset))) ∧
    (get_mocap_features M0 [[0], [0], [0], [0], [0]] 20 (2 / 100) 1 false
        false).features.quaternion =
      (get_mocap_features M0 [[0], [0], [0], [0], [0]] 20 (2 / 100) 0 false
        false).features.quaternion ∧
    (get_mocap_features M0 [[0], [0], [0], [0], [0]] 20 (2 / 100) 1 false
        false).features.joints =
      (get_mocap_features M0 [[0], [0], [0], [0], [0]] 20 (2 / 100) 0 false
        false).features.joints ∧
    (get_mocap_features M0 [[0], [0], [0], [0], [0]] 20 (2 / 100) 1 false
        false).features.end_effectors =
      (get_mocap_features M0 [[0], [0], [0], [0], [0]] 20 (2 / 100) 0 false
        false).features.end_effectors ∧
    (get_mocap_features M0 [[0], [0], [0], [0], [0]] 20 (2 / 100) 1 false
        false).features.appendages =
      (get_mocap_features M0 [[0], [0], [0], [0], [0]] 20 (2 / 100) 0 false
        false).features.appendages ∧
    (get_mocap_features M0 [[0], [0], [0], [0], [0]] 20 (2 / 100) 1 false
        false).features.body_quaternions =
      (get_mocap_features M0 [[0], [0], [0], [0], [0]] 20 (2 / 100) 0 false
        false).features.body_quaternions ∧
    (get_mocap_features M0 [[0], [0], [0], [0], [0]] 20 (2 / 100) 1 false
        false).callerQpos =
      (get_mocap_features M0 [[0], [0], [0], [0], [0]] 20 (2 / 100) 0 false
        false).callerQpos :=
  C3_ground_alignment M0 [[0], [0], [0], [0], [0]] 20 (2 / 100) 1 false false
    (by norm_num) (by decide)

end MocapPreprocess
